import Mathlib

/-!
Shallow embedding of the mana API-client core (the richest observed revision
of `index.js`): the request coalescing queue (`fnqueue` / `all` / `fetching`
/ `push`), the mirror `downgrade` chain, the response classification handler
`parse` nested in `send`, the quota updates from rate-limit headers, the
conditional cache `fireforget` wrapper and the back off configuration that
`send` assembles.
-/

namespace Mana

/-- JavaScript values delivered as response payloads (parsed JSON data or raw
string bodies). The subset suffices for every payload the client handles. -/
inductive JsData where
  | null
  | bool (b : Bool)
  | num (n : Int)
  | str (s : String)
  | arr (xs : List JsData)

/-- Whitespace skipping used by the JSON reader. -/
def jsonWs (s : List Char) : List Char :=
  s.dropWhile (fun c => [' ', '\t', '\n', '\r'].contains c)

/-- Splits a leading run of decimal digits from the input. -/
def splitDigits (s : List Char) : List Char × List Char :=
  (s.takeWhile Char.isDigit, s.dropWhile Char.isDigit)

/-- Numeric value of a digit run. -/
def digitsToNat (ds : List Char) : Nat :=
  ds.foldl (fun acc c => acc * 10 + (c.toNat - 48)) 0

/-- Reads the remainder of an escape-free JSON string literal up to the
closing quote. -/
def readStringLit (s : List Char) : Option (String × List Char) :=
  let body := s.takeWhile (fun c => !(c == '"' || c == '\\'))
  match s.drop body.length with
  | '"' :: r => some (String.mk body, r)
  | _ => none

mutual

/-- Fuel-bounded recursive-descent JSON reader. It models the host builtin
`JSON.parse` on a subset (null, booleans, integers, escape-free strings,
arrays); returning `none` models the exception that `JSON.parse` throws on
malformed input. -/
def jsonVal : Nat → List Char → Option (JsData × List Char)
  | 0, _ => none
  | fuel + 1, s =>
    match jsonWs s with
    | 'n' :: 'u' :: 'l' :: 'l' :: more => some (JsData.null, more)
    | 't' :: 'r' :: 'u' :: 'e' :: more => some (JsData.bool true, more)
    | 'f' :: 'a' :: 'l' :: 's' :: 'e' :: more => some (JsData.bool false, more)
    | '"' :: more => (readStringLit more).map (fun p => (JsData.str p.1, p.2))
    | '-' :: more =>
      match splitDigits more with
      | ([], _) => none
      | (ds, after) => some (JsData.num (-(digitsToNat ds : Int)), after)
    | '[' :: more =>
      match jsonWs more with
      | ']' :: after => some (JsData.arr [], after)
      | _ => (jsonArr fuel (jsonWs more)).map (fun p => (JsData.arr p.1, p.2))
    | c :: more =>
      if c.isDigit then
        match splitDigits (c :: more) with
        | (ds, after) => some (JsData.num (digitsToNat ds : Int), after)
      else none
    | [] => none

/-- Reads one or more comma-separated JSON values and the closing bracket. -/
def jsonArr : Nat → List Char → Option (List JsData × List Char)
  | 0, _ => none
  | fuel + 1, s =>
    match jsonVal fuel s with
    | none => none
    | some (v, more) =>
      match jsonWs more with
      | ',' :: after => (jsonArr fuel after).map (fun p => (v :: p.1, p.2))
      | ']' :: after => some ([v], after)
      | _ => none

end

/-- Models `JSON.parse(body)`: a value must be read and the remaining input
must be only whitespace. -/
def jsonLite (s : String) : Option JsData :=
  match jsonVal (2 * s.length + 2) s.data with
  | some (v, rest) => if jsonWs rest = [] then some v else none
  | none => none

/-- Headers as an ordered list of (name, value) pairs; response header names
arrive lowercased by the Node HTTP layer. -/
abbrev Headers := List (String × String)

/-- Reads a header value, modelling the property access `headers[k]`. -/
def hget (hs : Headers) (k : String) : Option String :=
  (hs.find? (fun p => p.1 == k)).map (fun p => p.2)

/-- Models the property assignment `headers[k] = v`. -/
def hset (hs : Headers) (k v : String) : Headers :=
  if (hs.find? (fun p => p.1 == k)).isSome then
    hs.map (fun p => if p.1 == k then (k, v) else p)
  else hs ++ [(k, v)]

/-- Truthiness of a possibly-absent string: `undefined` and the empty string
are falsy in JavaScript. -/
def truthy : Option String → Bool
  | none => false
  | some s => !(s == "")

/-- The quota bookkeeping fields a client instance carries. -/
structure Quota where
  ratelimit : Int
  remaining : Int
  ratereset : Int
deriving DecidableEq

/-- Models the JS numeric coercion `+s` on integer-literal strings: the empty
string coerces to 0, digit strings (optionally signed) to their value and
anything else to NaN (`none`). -/
def jsToNumber (s : String) : Option Int :=
  if s.data = [] then some 0
  else if s.data.all Char.isDigit then some (digitsToNat s.data : Int)
  else if s.data.head? = some '-' ∧ s.data.tail.all Char.isDigit ∧ s.data.tail ≠ [] then
    some (-(digitsToNat s.data.tail : Int))
  else none

/-- The `x || old` pattern applied to each quota field: a NaN or zero
observation keeps the previous value. -/
def orKeep (observed : Option Int) (old : Int) : Int :=
  match observed with
  | some n => if n = 0 then old else n
  | none => old

/-- The quota refresh performed by the response handler: each field is
overwritten from the corresponding `x-rate-limit-*` response header unless
that coerces to a falsy number. -/
def updateQuota (q : Quota) (hs : Headers) : Quota :=
  { ratelimit := orKeep ((hget hs "x-rate-limit-limit").bind jsToNumber) q.ratelimit
    remaining := orKeep ((hget hs "x-rate-limit-remaining").bind jsToNumber) q.remaining
    ratereset := orKeep ((hget hs "x-rate-limit-reset").bind jsToNumber) q.ratereset }

/-- The transport response shape `{statusCode, headers}`; the body string is
passed alongside. -/
structure Response where
  statusCode : Nat
  headers : Headers
deriving DecidableEq

/-- A cache record `{etag, key, data}` as assembled for `fireforget('set', …)`
and as read back for the `If-None-Match` validator. -/
structure CacheEntry where
  etag : String
  key : String
  data : JsData

/-- Models `~s.indexOf(sub)` being truthy: substring containment. -/
def strContains (s sub : String) : Bool := decide (sub.data <:+: s.data)

/-- The externally visible action the response handler takes on the `Assign`
stream and on the mirror cursor. `destroy` is `assign.destroy(err)` with the
statusCode and `data` carried on the error, `next` invokes the downgrade
continuation (a further transport attempt), `write` is
`assign.write(data, {end: true})` and `writeHead` the `{res, data}` variant
used for HEAD requests. -/
inductive Outcome where
  | destroy (statusCode : Option Nat) (errData : Option JsData)
  | next
  | write (payload : JsData)
  | writeHead (statusCode : Nat) (payload : JsData)

/-- Everything the response handler observably does: the stream or mirror
action, the resulting quota fields, and the scheduled fire-and-forget cache
write, if any. -/
structure ParseResult where
  outcome : Outcome
  quota : Quota
  cacheStore : Option CacheEntry

/-- The body-to-data step of the response handler: the body is JSON-parsed
unless the Accept header names a text or HTML representation or the method is
HEAD; `none` is the caught `JSON.parse` exception, which the handler routes
to `next()`. -/
def responseData (jp : String → Option JsData) (method accept body : String) :
    Option JsData :=
  if strContains accept "text" = false ∧ strContains accept "html" = false
      ∧ method ≠ "HEAD" then
    jp body
  else some (.str body)

/-- The response handler after the 304-with-cache-hit check has fallen
through (the stored cache entry is not consulted beyond that point). -/
def parseMain (jp : String → Option JsData) (method accept urid : String)
    (q : Quota) (res : Response) (body : String) : ParseResult :=
  if res.statusCode ≠ 200 ∧ res.statusCode ≠ 404 then ⟨.next, q, none⟩
  else
    let q2 := updateQuota q res.headers
    match responseData jp method accept body with
    | none => ⟨.next, q2, none⟩
    | some data =>
      if res.statusCode = 404 ∧ method ≠ "HEAD" then
        ⟨.destroy (some 404) (some data), q2, none⟩
      else
        let store :=
          if truthy (hget res.headers "etag") ∧ method = "GET" then
            some (⟨(hget res.headers "etag").getD "", urid, data⟩ : CacheEntry)
          else none
        if method ≠ "HEAD" then ⟨.write data, q2, store⟩
        else ⟨.writeHead res.statusCode data, q2, store⟩

/-- The `parse(err, res, body)` handler nested in `send`, as a function of the
transport outcome. A transport-level error forces `err.statusCode = 500` and
destroys the assignment; a 304 status combined with a cache hit writes the
cached payload; every other case falls through to `parseMain`. -/
def parse (jp : String → Option JsData) (method accept : String)
    (cache : Option CacheEntry) (urid : String) (q : Quota)
    (tr : Except String (Response × String)) : ParseResult :=
  match tr with
  | .error _ => ⟨.destroy (some 500) none, q, none⟩
  | .ok (res, body) =>
    match cache with
    | some c =>
      if res.statusCode = 304 then ⟨.write c.data, q, none⟩
      else parseMain jp method accept urid q res body
    | none => parseMain jp method accept urid q res body

/-- A pluggable cache backend configured on the client (`this.cache` on the
Mana instance): `get(key)` returns the stored record or `undefined`. -/
structure CacheBackend where
  entries : String → Option CacheEntry

/-- The body of the `function immediate()` that `fireforget('get', {key}, fn)`
schedules via `setImmediate`. Its `this.cache` read happens on whatever
receiver the timer system binds when invoking the callback; that receiver is
passed here as `thisCache`. The result is the `(err, cache)` argument pair
delivered to `fn` (with no cache on the receiver, the code runs `args.fn()`
with both arguments `undefined`). -/
def fireforgetGet (thisCache : Option CacheBackend) (key : String) :
    Option String × Option CacheEntry :=
  match thisCache with
  | some c => (none, c.entries key)
  | none => (none, none)

/-- The body of the `function immediate()` scheduled by
`fireforget('set', obj)`: the `set(key, obj)` call that reaches the cache
backend, if any. With no cache on the timer receiver no backend call is made
and the `nope` callback swallows the event. -/
def fireforgetSet (thisCache : Option CacheBackend) (obj : CacheEntry) :
    Option (String × CacheEntry) :=
  match thisCache with
  | some _ => some (obj.key, obj)
  | none => none

/-- Node invokes a `setImmediate` / `setTimeout` callback with `this` bound to
the Immediate or Timeout handle, an object that carries no `cache` property.
This is the receiver the scheduled `fireforget` callback actually reads
`this.cache` from, independent of the backend configured on the client. -/
def timerReceiverCache : Option CacheBackend := none

/-- The continuation in `send` that receives the fireforget lookup result:
any error, or any result that is not an object, leaves `cache` undefined. -/
def sendCacheLookup (thisCache : Option CacheBackend) (key : String) :
    Option CacheEntry :=
  match fireforgetGet thisCache key with
  | (some _, _) => none
  | (none, c) => c

/-- One step of the default-header loop in `send`: the header is added only
when neither its key nor its lowercased key is already present and its value
is truthy. -/
def addDefaultHeader (hs : Headers) (k : String) (v : Option String) : Headers :=
  if (hget hs k).isSome || (hget hs k.toLower).isSome then hs
  else match v with
    | none => hs
    | some s => if s = "" then hs else hs ++ [(k, s)]

/-- The headers `send` dispatches with: the user headers, then the three
defaults (User-Agent, Authorization, Accept) filled only if absent, then the
`If-None-Match` validator taken from the cache lookup result. -/
def sendHeaders (version nodeVersion : String) (authorization : Option String)
    (user : Headers) (cache : Option CacheEntry) : Headers :=
  let h1 := addDefaultHeader user "User-Agent"
    (some ("mana/" ++ version ++ " node/" ++ nodeVersion))
  let h2 := addDefaultHeader h1 "Authorization" authorization
  let h3 := addDefaultHeader h2 "Accept" (some "application/json")
  match cache with
  | some c => hset h3 "If-None-Match" c.etag
  | none => h3

/-- The client state touched by the request coalescer: the `fnqueue` map from
request identifier to the ordered list of waiting callbacks (callbacks are
identified by numbers), plus a count of transport dispatches issued. -/
structure QueueState where
  fnqueue : List (String × List Nat)
  transportCalls : Nat
deriving DecidableEq

/-- Models `this.fetching(urid)`, the `fnqueue[urid]` lookup. -/
def fetching (s : QueueState) (urid : String) : Option (List Nat) :=
  (s.fnqueue.find? (fun p => p.1 == urid)).map (fun p => p.2)

/-- Models `this.push(urid, fn)`: create the entry with `[fn]` when absent,
append `fn` to the existing waiter list otherwise. -/
def push (s : QueueState) (urid : String) (fn : Nat) : QueueState :=
  match fetching s urid with
  | none => { s with fnqueue := s.fnqueue ++ [(urid, [fn])] }
  | some q =>
    { s with fnqueue := s.fnqueue.map (fun p => if p.1 == urid then (p.1, q ++ [fn]) else p) }

/-- The queue-relevant prefix of `send`: a GET for an identifier that is
already being fetched only enqueues its callback and returns; every other
call enqueues its callback and proceeds to dispatch a transport attempt. The
returned Bool reports whether a transport call was issued. -/
def sendStep (method urid : String) (fn : Nat) (s : QueueState) :
    QueueState × Bool :=
  if method = "GET" ∧ (fetching s urid).isSome then (push s urid fn, false)
  else
    let s2 := push s urid fn
    ({ s2 with transportCalls := s2.transportCalls + 1 }, true)

/-- The completion closure built by `this.all(urid)`: when no entry exists the
event is a logged no-op; otherwise the waiter list is detached and the entry
deleted first, and every detached callback is then invoked with the same
`(err, data)` pair in enqueue order. The returned list is that invocation
sequence. -/
def allComplete (urid : String) (err : Option String) (data : JsData)
    (s : QueueState) : QueueState × List (Nat × Option String × JsData) :=
  match fetching s urid with
  | none => (s, [])
  | some queue =>
    ({ s with fnqueue := s.fnqueue.filter (fun p => p.1 != urid) },
     queue.map (fun fn => (fn, err, data)))

/-- The truthiness filter and first-occurrence test performed by `downgrade`
on the mirror list: an entry is kept when it is a nonempty string whose first
index (via `all.indexOf(item)`) in the original list equals its own index. -/
def idxOf : List (Option String) → Option String → Nat
  | [], _ => 0
  | y :: ys, x => if y = x then 0 else idxOf ys x + 1

/-- The `mirrors.filter(dedupe)` pass of `downgrade`, walking the list while
tracking each element index against the original list `orig`. -/
def dedupeFrom (orig : List (Option String)) : Nat → List (Option String) → List String
  | _, [] => []
  | i, none :: xs => dedupeFrom orig (i + 1) xs
  | i, some m :: xs =>
    if m ≠ "" ∧ idxOf orig (some m) = i then m :: dedupeFrom orig (i + 1) xs
    else dedupeFrom orig (i + 1) xs

/-- The deduplicated, falsy-filtered candidate list that `downgrade` consumes
left to right. -/
def downgradeMirrors (mirrors : List (Option String)) : List String :=
  dedupeFrom mirrors 0 mirrors

/-- The candidate chain for one logical request, as assembled by `send`
(`[options.api || this.api].concat(this.mirrors || [])`) and filtered by
`downgrade`. -/
def buildChain (primary : String) (mirrors : List (Option String)) : List String :=
  downgradeMirrors (some primary :: mirrors)

/-- The specification-side description of the mirror list: falsy entries
dropped, in order. -/
def filterTruthy : List (Option String) → List String
  | [] => []
  | none :: xs => filterTruthy xs
  | some s :: xs => if s = "" then filterTruthy xs else s :: filterTruthy xs

/-- The specification-side description of duplicate collapsing: keep each
value at its first occurrence, dropping values already seen. -/
def keepFirstSeen (seen : List String) : List String → List String
  | [] => []
  | x :: xs =>
    if x ∈ seen then keepFirstSeen seen xs
    else x :: keepFirstSeen (x :: seen) xs

/-- The candidate sequence exactly as the specification words it: [primary]
followed by the mirrors, falsy entries dropped, duplicates collapsed to
their first occurrence. -/
def specChain (primary : String) (mirrors : List (Option String)) : List String :=
  keepFirstSeen [] (filterTruthy (some primary :: mirrors))

/-- The `send` options object restricted to the back off configuration: the
value stored under the key `retries`, the value stored under the distinct
key `retires` (the misspelled property the code reads), and `factor`. A
`none` field models an absent key. -/
structure SendOptions where
  retries : Option Nat := none
  retires : Option Nat := none
  factor : Option Nat := none
deriving DecidableEq

/-- The prototype default `Mana.prototype.retries`. -/
def defaultRetries : Nat := 3

/-- The prototype default `Mana.prototype.factor`. -/
def defaultFactor : Nat := 2

/-- The `retries` field of the `options.backoff` object `send` builds:
the code evaluates `'retries' in options ? options.retires : this.retries`. -/
def backoffRetries (o : SendOptions) : Option Nat :=
  if o.retries.isSome then o.retires else some defaultRetries

/-- The `factor` field of the `options.backoff` object `send` builds. -/
def backoffFactor (o : SendOptions) : Option Nat :=
  if o.factor.isSome then o.factor else some defaultFactor

/-! Helper lemmas about the callback-queue map. -/

lemma fetching_of_filter_out (s : QueueState) (u : String) :
    fetching ⟨s.fnqueue.filter (fun p => p.1 != u), s.transportCalls⟩ u = none := by
  have hf : (s.fnqueue.filter (fun p => p.1 != u)).find? (fun p => p.1 == u) = none := by
    rw [List.find?_eq_none]
    intro p hp
    have := List.of_mem_filter hp
    simp only [bne_iff_ne, ne_eq, decide_eq_true_eq] at this
    simp [this]
  simp [fetching, hf]

lemma find?_of_fetching_none (s : QueueState) (u : String)
    (h : fetching s u = none) :
    s.fnqueue.find? (fun p => p.1 == u) = none := by
  unfold fetching at h
  cases hfind : s.fnqueue.find? (fun p => p.1 == u) with
  | none => rfl
  | some p => rw [hfind] at h; simp at h

lemma fetching_append_self (l : List (String × List Nat)) (u : String)
    (g : List Nat) (n : Nat) (h : l.find? (fun p => p.1 == u) = none) :
    fetching ⟨l ++ [(u, g)], n⟩ u = some g := by
  unfold fetching
  simp [List.find?_append, h, List.find?_cons]

lemma sendStep_of_absent (s : QueueState) (u : String) (f : Nat) (m : String)
    (h : fetching s u = none) :
    sendStep m u f s = (⟨s.fnqueue ++ [(u, [f])], s.transportCalls + 1⟩, true) := by
  unfold sendStep push
  rw [h]
  simp

/-- A claim-facing restatement: the state produced by `allComplete` when an
entry exists. -/
lemma allComplete_of_fetching (s : QueueState) (u : String) (q : List Nat)
    (err : Option String) (d : JsData) (h : fetching s u = some q) :
    allComplete u err d s =
      (⟨s.fnqueue.filter (fun p => p.1 != u), s.transportCalls⟩,
       q.map (fun fn => (fn, err, d))) := by
  unfold allComplete
  rw [h]

/-- C1. For every pair of `send` calls with method GET and the same request
identifier, where the second call is issued before the in-flight transport
call of the first resolves, exactly one transport call occurs, and both
callbacks receive an identical `(error, data)` pair, invoked in the order
they were enqueued. -/
theorem send_get_coalesces (u : String) (f1 f2 : Nat) (err : Option String)
    (d : JsData) :
    sendStep "GET" u f1 ⟨[], 0⟩ = (⟨[(u, [f1])], 1⟩, true) ∧
    sendStep "GET" u f2 ⟨[(u, [f1])], 1⟩ = (⟨[(u, [f1, f2])], 1⟩, false) ∧
    allComplete u err d ⟨[(u, [f1, f2])], 1⟩ =
      (⟨[], 1⟩, [(f1, err, d), (f2, err, d)]) := by
  refine ⟨?_, ?_, ?_⟩ <;>
    simp [sendStep, push, fetching, allComplete, List.find?_cons]

/-- C6. When an in-flight call for a request identifier completes, the
pending-request entry is removed from the queue map before any waiting
callback is invoked, so a callback that re-issues a request to the same
identifier creates a fresh entry and a fresh transport call rather than
being appended to the completing entry. -/
theorem complete_detaches_entry_first (u : String) (q : List Nat)
    (s : QueueState) (g : Nat) (err : Option String) (d : JsData)
    (h : fetching s u = some q) :
    fetching (allComplete u err d s).1 u = none ∧
    (allComplete u err d s).2 = q.map (fun fn => (fn, err, d)) ∧
    (sendStep "GET" u g (allComplete u err d s).1).2 = true ∧
    fetching (sendStep "GET" u g (allComplete u err d s).1).1 u = some [g] ∧
    (sendStep "GET" u g (allComplete u err d s).1).1.transportCalls =
      (allComplete u err d s).1.transportCalls + 1 := by
  rw [allComplete_of_fetching s u q err d h]
  have hnone := fetching_of_filter_out s u
  have hfind := find?_of_fetching_none _ u hnone
  have hsend := sendStep_of_absent _ u g "GET" hnone
  dsimp only
  rw [hsend]
  exact ⟨hnone, rfl, rfl, fetching_append_self _ u [g] _ hfind, rfl⟩

theorem complete_detaches_entry_first_witness :
    fetching (allComplete "/users/1" none JsData.null ⟨[("/users/1", [7])], 1⟩).1
      "/users/1" = none ∧
    (allComplete "/users/1" none JsData.null ⟨[("/users/1", [7])], 1⟩).2 =
      [7].map (fun fn => (fn, none, JsData.null)) ∧
    (sendStep "GET" "/users/1" 9
      (allComplete "/users/1" none JsData.null ⟨[("/users/1", [7])], 1⟩).1).2 = true ∧
    fetching (sendStep "GET" "/users/1" 9
      (allComplete "/users/1" none JsData.null ⟨[("/users/1", [7])], 1⟩).1).1
      "/users/1" = some [9] ∧
    (sendStep "GET" "/users/1" 9
      (allComplete "/users/1" none JsData.null ⟨[("/users/1", [7])], 1⟩).1).1.transportCalls =
      (allComplete "/users/1" none JsData.null ⟨[("/users/1", [7])], 1⟩).1.transportCalls + 1 :=
  complete_detaches_entry_first "/users/1" [7] ⟨[("/users/1", [7])], 1⟩ 9 none
    JsData.null rfl

/-- C10. Every `send` call, regardless of HTTP method, appends its callback to
the shared pending-queue entry for the identifier (non-GET calls additionally
issue their own transport call): a POST issued while a GET to the same
identifier is in flight shares one waiter list, the first completion invokes
and clears all queued callbacks, and the later completion finds no entry and
is a no-op. -/
theorem send_any_method_shares_queue (u : String) (f1 f2 : Nat)
    (err err2 : Option String) (d d2 : JsData) :
    sendStep "GET" u f1 ⟨[], 0⟩ = (⟨[(u, [f1])], 1⟩, true) ∧
    sendStep "POST" u f2 ⟨[(u, [f1])], 1⟩ = (⟨[(u, [f1, f2])], 2⟩, true) ∧
    allComplete u err d ⟨[(u, [f1, f2])], 2⟩ =
      (⟨[], 2⟩, [(f1, err, d), (f2, err, d)]) ∧
    allComplete u err2 d2 ⟨[], 2⟩ = (⟨[], 2⟩, []) := by
  refine ⟨?_, ?_, ?_, ?_⟩ <;>
    simp [sendStep, push, fetching, allComplete, List.find?_cons]

/-! Helper lemmas for the mirror-chain dedup equivalence. -/

lemma idxOf_append_self (x : Option String) (xs : List (Option String)) :
    ∀ pre : List (Option String),
      idxOf (pre ++ x :: xs) x = pre.length ↔ x ∉ pre := by
  intro pre
  induction pre with
  | nil => simp [idxOf]
  | cons p ps ih =>
    by_cases hp : p = x
    · subst hp
      simp [idxOf]
    · have hxp : x ≠ p := fun hh => hp hh.symm
      have hstep : idxOf ((p :: ps) ++ x :: xs) x = idxOf (ps ++ x :: xs) x + 1 := by
        simp [idxOf, hp]
      rw [hstep]
      simp only [List.length_cons, Nat.add_right_cancel_iff, List.mem_cons, not_or]
      rw [ih]
      constructor
      · intro hm
        exact ⟨hxp, hm⟩
      · intro hm
        exact hm.2

lemma filterTruthy_append (a b : List (Option String)) :
    filterTruthy (a ++ b) = filterTruthy a ++ filterTruthy b := by
  induction a with
  | nil => rfl
  | cons x xs ih =>
    cases x with
    | none => simpa [filterTruthy] using ih
    | some s =>
      by_cases hs : s = ""
      · simp [filterTruthy, hs, ih]
      · simp [filterTruthy, hs, ih]

lemma mem_filterTruthy (s : String) (hs : s ≠ "") :
    ∀ l : List (Option String), s ∈ filterTruthy l ↔ some s ∈ l := by
  intro l
  induction l with
  | nil => simp [filterTruthy]
  | cons x xs ih =>
    cases x with
    | none => simp [filterTruthy, ih]
    | some t =>
      by_cases ht : t = ""
      · subst ht
        have hft : filterTruthy (some "" :: xs) = filterTruthy xs := by
          simp [filterTruthy]
        rw [hft, ih]
        simp only [List.mem_cons]
        constructor
        · intro hm
          exact Or.inr hm
        · intro hm
          rcases hm with hm | hm
          · exact absurd (Option.some.inj hm) hs
          · exact hm
      · simp [filterTruthy, ht, ih]

lemma keepFirstSeen_congr (l : List String) :
    ∀ s1 s2 : List String, (∀ a, a ∈ s1 ↔ a ∈ s2) →
      keepFirstSeen s1 l = keepFirstSeen s2 l := by
  induction l with
  | nil => intro s1 s2 _; rfl
  | cons x xs ih =>
    intro s1 s2 hmem
    by_cases hx : x ∈ s1
    · have hx2 : x ∈ s2 := (hmem x).1 hx
      simp [keepFirstSeen, hx, hx2, ih s1 s2 hmem]
    · have hx2 : x ∉ s2 := fun hh => hx ((hmem x).2 hh)
      simp only [keepFirstSeen, if_neg hx, if_neg hx2]
      rw [ih (x :: s1) (x :: s2) (fun a => by simp [hmem a])]

lemma dedupeFrom_eq :
    ∀ suf pre : List (Option String),
      dedupeFrom (pre ++ suf) pre.length suf =
        keepFirstSeen (filterTruthy pre) (filterTruthy suf) := by
  intro suf
  induction suf with
  | nil => intro pre; rfl
  | cons x xs ih =>
    intro pre
    have hstep : ∀ y : Option String,
        dedupeFrom (pre ++ y :: xs) (pre.length + 1) xs =
          keepFirstSeen (filterTruthy (pre ++ [y])) (filterTruthy xs) := by
      intro y
      have hlen : (pre ++ [y]).length = pre.length + 1 := by simp
      have hlist : (pre ++ [y]) ++ xs = pre ++ y :: xs := by simp
      have := ih (pre ++ [y])
      rw [hlen, hlist] at this
      exact this
    cases x with
    | none =>
      have : filterTruthy (pre ++ [none]) = filterTruthy pre := by
        simp [filterTruthy_append, filterTruthy]
      simpa [dedupeFrom, filterTruthy, this] using hstep none
    | some m =>
      by_cases hm : m = ""
      · subst hm
        have : filterTruthy (pre ++ [some ""]) = filterTruthy pre := by
          simp [filterTruthy_append, filterTruthy]
        simpa [dedupeFrom, filterTruthy, this] using hstep (some "")
      · have htr : filterTruthy (pre ++ [some m]) = filterTruthy pre ++ [m] := by
          simp [filterTruthy_append, filterTruthy, hm]
        have hrest := hstep (some m)
        rw [htr] at hrest
        by_cases hin : some m ∈ pre
        · have hidx : idxOf (pre ++ some m :: xs) (some m) ≠ pre.length := by
            rw [ne_eq, idxOf_append_self]
            simp [hin]
          have hmem : m ∈ filterTruthy pre := (mem_filterTruthy m hm pre).2 hin
          have hcongr : keepFirstSeen (filterTruthy pre ++ [m]) (filterTruthy xs) =
              keepFirstSeen (filterTruthy pre) (filterTruthy xs) :=
            keepFirstSeen_congr _ _ _ (fun a => by
              simp only [List.mem_append, List.mem_singleton, List.mem_cons,
                List.not_mem_nil, or_false]
              constructor
              · intro ha
                rcases ha with ha | ha
                · exact ha
                · rw [ha]; exact hmem
              · intro ha
                exact Or.inl ha)
          simp [dedupeFrom, hm, hidx, filterTruthy, hmem, keepFirstSeen,
            hrest, hcongr]
        · have hidx : idxOf (pre ++ some m :: xs) (some m) = pre.length := by
            rw [idxOf_append_self]
            exact hin
          have hmem : m ∉ filterTruthy pre :=
            fun hh => hin ((mem_filterTruthy m hm pre).1 hh)
          have hcongr : keepFirstSeen (filterTruthy pre ++ [m]) (filterTruthy xs) =
              keepFirstSeen (m :: filterTruthy pre) (filterTruthy xs) :=
            keepFirstSeen_congr _ _ _ (fun a => by
              simp only [List.mem_append, List.mem_singleton, List.mem_cons,
                List.not_mem_nil, or_false]
              exact Or.comm)
          simp [dedupeFrom, hm, hidx, filterTruthy, hmem, keepFirstSeen,
            hrest, hcongr]

/-- C5. For every primary endpoint and mirror list, the candidate sequence
tried by `downgrade` is [primary] followed by the mirrors, with falsy entries
dropped and duplicates collapsed to their first occurrence; in particular the
chain built from primary `https://a` and mirrors
`[https://b, null, https://b, https://a]` is exactly
`[https://a, https://b]`. -/
theorem downgrade_chain_spec :
    (∀ (primary : String) (mirrors : List (Option String)),
      buildChain primary mirrors = specChain primary mirrors) ∧
    buildChain "https://a"
      [some "https://b", none, some "https://b", some "https://a"] =
      ["https://a", "https://b"] := by
  constructor
  · intro primary mirrors
    unfold buildChain specChain downgradeMirrors
    simpa using dedupeFrom_eq (some primary :: mirrors) []
  · decide

/-! Helper lemmas about headers. -/

lemma find?_of_hget_none (hs : Headers) (k : String) (h : hget hs k = none) :
    hs.find? (fun p => p.1 == k) = none := by
  unfold hget at h
  cases hfind : hs.find? (fun p => p.1 == k) with
  | none => rfl
  | some p => rw [hfind] at h; simp at h

lemma hget_addDefaultHeader_ne (hs : Headers) (k k2 : String) (v : Option String)
    (hk : k ≠ k2) (h : hget hs k2 = none) :
    hget (addDefaultHeader hs k v) k2 = none := by
  have hf := find?_of_hget_none hs k2 h
  unfold addDefaultHeader
  by_cases hc : (hget hs k).isSome || (hget hs k.toLower).isSome
  · rw [if_pos hc]; exact h
  · rw [if_neg hc]
    cases v with
    | none => exact h
    | some s =>
      show hget (if s = "" then hs else hs ++ [(k, s)]) k2 = none
      by_cases hse : s = ""
      · rw [if_pos hse]; exact h
      · rw [if_neg hse]
        unfold hget
        simp [List.find?_append, hf, List.find?_cons, hk]

/-- C3 (code evaluation). A transport-level failure of an attempt does not
advance the Mirror Chain and does not hand control to the Backoff Policy:
the handler forces `err.statusCode = 500` and destroys the assignment,
delivering a terminal error to the caller for that single failed attempt. -/
theorem transport_error_is_terminal (jp : String → Option JsData)
    (method accept : String) (cache : Option CacheEntry) (urid : String)
    (q : Quota) (e : String) :
    parse jp method accept cache urid q (.error e) =
      ⟨.destroy (some 500) none, q, none⟩ ∧
    (parse jp method accept cache urid q (.error e)).outcome ≠ Outcome.next :=
  ⟨rfl, fun h => nomatch h⟩

/-- C2 (counterexample). A response with HTTP status 404 whose body is an
HTML error page is not delivered as a terminal error: the failed JSON parse
routes it to `next()`, i.e. to a further transport call against the next
mirror candidate. -/
theorem notfound_html_body_retries :
    parse jsonLite "GET" "application/json" none "/users/9" ⟨0, 0, 0⟩
        (.ok (⟨404, []⟩, "<html>down</html>")) =
      ⟨.next, ⟨0, 0, 0⟩, none⟩ ∧
    (parse jsonLite "GET" "application/json" none "/users/9" ⟨0, 0, 0⟩
        (.ok (⟨404, []⟩, "<html>down</html>"))).outcome ≠
      Outcome.destroy (some 404) (some (JsData.str "<html>down</html>")) :=
  ⟨rfl, fun h => nomatch h⟩

/-- C2 (amended). For every 404 response to a non-HEAD request whose
body-to-data step succeeds (the body parses as JSON, or the negotiated Accept
names a text/HTML representation so the raw body is used), the result is
delivered immediately as a terminal error carrying status code 404 and the
parsed body, and no further transport call — neither mirror nor backoff — is
made for that response. -/
theorem notfound_parsed_is_terminal (jp : String → Option JsData)
    (method accept urid : String) (cache : Option CacheEntry) (q : Quota)
    (hs : Headers) (body : String) (d : JsData)
    (hm : method ≠ "HEAD")
    (hd : responseData jp method accept body = some d) :
    parse jp method accept cache urid q (.ok (⟨404, hs⟩, body)) =
      ⟨.destroy (some 404) (some d), updateQuota q hs, none⟩ := by
  have hmain : parseMain jp method accept urid q ⟨404, hs⟩ body =
      ⟨.destroy (some 404) (some d), updateQuota q hs, none⟩ := by
    unfold parseMain
    simp [hd, hm]
  cases cache with
  | none => simpa [parse] using hmain
  | some c => simpa [parse] using hmain

theorem notfound_parsed_is_terminal_witness :
    "GET" ≠ "HEAD" ∧
    responseData jsonLite "GET" "application/json" "null" = some JsData.null ∧
    parse jsonLite "GET" "application/json" none "/users/9" ⟨0, 0, 0⟩
        (.ok (⟨404, []⟩, "null")) =
      ⟨.destroy (some 404) (some JsData.null), updateQuota ⟨0, 0, 0⟩ [], none⟩ :=
  ⟨by decide, rfl,
    notfound_parsed_is_terminal jsonLite "GET" "application/json" "/users/9"
      none ⟨0, 0, 0⟩ [] "null" JsData.null (by decide) rfl⟩

/-- C8 (counterexample). A successfully parsed 200 response carrying its
rate-limit headers under the `x-ratelimit-*` spelling leaves all three quota
fields unchanged: the handler reads only the `x-rate-limit-*` keys. -/
theorem ratelimit_spelling_not_read :
    parse jsonLite "GET" "application/json" none "/rate" ⟨0, 0, 0⟩
        (.ok (⟨200, [("x-ratelimit-limit", "60"), ("x-ratelimit-remaining", "59"),
          ("x-ratelimit-reset", "1700000000")]⟩, "null")) =
      ⟨.write JsData.null, ⟨0, 0, 0⟩, none⟩ := rfl

/-- C8 (amended). After every successfully parsed 200 response, the quota
fields `ratelimit`, `remaining` and `ratereset` are updated from the
response headers named `x-rate-limit-limit`, `x-rate-limit-remaining` and
`x-rate-limit-reset` (lowercased by the transport) whenever those coerce to
nonzero numbers; the `x-ratelimit-*` spelling is not consulted. -/
theorem ratelimit_headers_update_quota (jp : String → Option JsData)
    (urid : String) (q : Quota) (hs : Headers) (body : String) (d : JsData)
    (ls rs ss : String) (nl nr ns : Int)
    (h1 : hget hs "x-rate-limit-limit" = some ls)
    (h2 : jsToNumber ls = some nl) (h3 : nl ≠ 0)
    (h4 : hget hs "x-rate-limit-remaining" = some rs)
    (h5 : jsToNumber rs = some nr) (h6 : nr ≠ 0)
    (h7 : hget hs "x-rate-limit-reset" = some ss)
    (h8 : jsToNumber ss = some ns) (h9 : ns ≠ 0)
    (hd : jp body = some d) :
    (parse jp "GET" "application/json" none urid q
      (.ok (⟨200, hs⟩, body))).quota = ⟨nl, nr, ns⟩ ∧
    (parse jp "GET" "application/json" none urid q
      (.ok (⟨200, hs⟩, body))).outcome = Outcome.write d := by
  have hquota : updateQuota q hs = ⟨nl, nr, ns⟩ := by
    unfold updateQuota
    rw [h1, h4, h7]
    simp [orKeep, h2, h3, h5, h6, h8, h9]
  have hrd : responseData jp "GET" "application/json" body = some d := by
    unfold responseData
    rw [if_pos ⟨by decide, by decide, by decide⟩]
    exact hd
  constructor
  · simp [parse, parseMain, hrd, hquota]
  · simp [parse, parseMain, hrd]

theorem ratelimit_headers_update_quota_witness :
    hget [("x-rate-limit-limit", "60"), ("x-rate-limit-remaining", "59"),
        ("x-rate-limit-reset", "1700000000")] "x-rate-limit-limit" = some "60" ∧
    jsToNumber "60" = some 60 ∧ (60 : Int) ≠ 0 ∧
    jsonLite "null" = some JsData.null ∧
    (parse jsonLite "GET" "application/json" none "/rate" ⟨0, 0, 0⟩
      (.ok (⟨200, [("x-rate-limit-limit", "60"), ("x-rate-limit-remaining", "59"),
        ("x-rate-limit-reset", "1700000000")]⟩, "null"))).quota =
      ⟨60, 59, 1700000000⟩ :=
  ⟨rfl, by decide, by decide, rfl,
    (ratelimit_headers_update_quota jsonLite "/rate" ⟨0, 0, 0⟩
      [("x-rate-limit-limit", "60"), ("x-rate-limit-remaining", "59"),
        ("x-rate-limit-reset", "1700000000")] "null" JsData.null
      "60" "59" "1700000000" 60 59 1700000000
      rfl (by decide) (by decide) rfl (by decide) (by decide)
      rfl (by decide) (by decide) rfl).1⟩

/-- C9 (code evaluation). The retry budget placed in the backoff
configuration: when the caller supplies a `retries` option the code reads the
distinct, absent `retires` property and stores `undefined` rather than the
supplied value; only when the option is absent does it store the prototype
default 3. -/
theorem backoff_retries_typo :
    backoffRetries ⟨some 5, none, none⟩ = none ∧
    backoffRetries ⟨some 5, none, none⟩ ≠ some 5 ∧
    backoffRetries ⟨none, none, none⟩ = some 3 :=
  ⟨rfl, by decide, rfl⟩

/-- C4 (code evaluation). For every client whose configured cache backend
stores an entry for the request identifier, the scheduled `fireforget`
lookup reads `this.cache` on the timer receiver rather than on the client,
so it always misses: no `If-None-Match` header is attached to the outgoing
request even though the backend holds the etag, and a 304 answer is routed
to `next()` instead of delivering the cached payload. A receiver that did
carry the backend would have produced the entry. -/
theorem cache_lookup_misses_backend (b : CacheBackend) (k : String)
    (e : CacheEntry) (user : Headers) (version nodev : String)
    (auth : Option String) (jp : String → Option JsData) (q : Quota)
    (hb : b.entries k = some e)
    (hu : hget user "If-None-Match" = none) :
    fireforgetGet (some b) k = (none, some e) ∧
    fireforgetGet timerReceiverCache k = (none, none) ∧
    sendCacheLookup timerReceiverCache k = none ∧
    hget (sendHeaders version nodev auth user
      (sendCacheLookup timerReceiverCache k)) "If-None-Match" = none ∧
    (parse jp "GET" "application/json" (sendCacheLookup timerReceiverCache k)
      k q (.ok (⟨304, []⟩, ""))).outcome = Outcome.next := by
  refine ⟨by simp [fireforgetGet, hb], rfl, rfl, ?_, rfl⟩
  show hget (sendHeaders version nodev auth user none) "If-None-Match" = none
  unfold sendHeaders
  apply hget_addDefaultHeader_ne _ _ _ _ (by decide)
  apply hget_addDefaultHeader_ne _ _ _ _ (by decide)
  apply hget_addDefaultHeader_ne _ _ _ _ (by decide)
  exact hu

theorem cache_lookup_misses_backend_witness :
    (CacheBackend.mk (fun k => if k = "/widgets/7" then
        some ⟨"W/\"abc\"", "/widgets/7", JsData.null⟩ else none)).entries
      "/widgets/7" = some ⟨"W/\"abc\"", "/widgets/7", JsData.null⟩ ∧
    hget [] "If-None-Match" = none ∧
    hget (sendHeaders "0.1.0" "v0.10" none []
      (sendCacheLookup timerReceiverCache "/widgets/7")) "If-None-Match" = none ∧
    (parse jsonLite "GET" "application/json"
      (sendCacheLookup timerReceiverCache "/widgets/7") "/widgets/7" ⟨0, 0, 0⟩
      (.ok (⟨304, []⟩, ""))).outcome = Outcome.next := by
  have h := cache_lookup_misses_backend
    (CacheBackend.mk (fun k => if k = "/widgets/7" then
      some ⟨"W/\"abc\"", "/widgets/7", JsData.null⟩ else none))
    "/widgets/7" ⟨"W/\"abc\"", "/widgets/7", JsData.null⟩ [] "0.1.0" "v0.10"
    none jsonLite ⟨0, 0, 0⟩ (by simp) rfl
  exact ⟨by simp, rfl, h.2.2.2.1, h.2.2.2.2⟩

/-- C7 (code evaluation). After a 200 response to a GET request whose headers
carry an etag, the handler schedules `fireforget('set', {etag, key, data})`
and writes the payload to the caller without waiting on that store; but the
scheduled callback reads `this.cache` on the timer receiver, so the store
call never reaches the configured cache backend (and hence no backend error
can surface). A receiver that did carry the backend would have invoked
`set(key, record)`. -/
theorem cache_store_never_reaches_backend (jp : String → Option JsData)
    (urid : String) (q : Quota) (hs : Headers) (body : String) (d : JsData)
    (et : String)
    (hetag : hget hs "etag" = some et) (hne : et ≠ "")
    (hd : jp body = some d) :
    parse jp "GET" "application/json" none urid q (.ok (⟨200, hs⟩, body)) =
      ⟨.write d, updateQuota q hs, some ⟨et, urid, d⟩⟩ ∧
    fireforgetSet timerReceiverCache ⟨et, urid, d⟩ = none ∧
    ∀ b : CacheBackend,
      fireforgetSet (some b) ⟨et, urid, d⟩ = some (urid, ⟨et, urid, d⟩) := by
  refine ⟨?_, rfl, fun b => rfl⟩
  have hrd : responseData jp "GET" "application/json" body = some d := by
    unfold responseData
    rw [if_pos ⟨by decide, by decide, by decide⟩]
    exact hd
  simp [parse, parseMain, hrd, hetag, truthy, hne]

theorem cache_store_never_reaches_backend_witness :
    hget [("etag", "v1")] "etag" = some "v1" ∧ "v1" ≠ "" ∧
    jsonLite "[1]" = some (JsData.arr [JsData.num 1]) ∧
    parse jsonLite "GET" "application/json" none "/w" ⟨0, 0, 0⟩
        (.ok (⟨200, [("etag", "v1")]⟩, "[1]")) =
      ⟨.write (JsData.arr [JsData.num 1]), updateQuota ⟨0, 0, 0⟩ [("etag", "v1")],
        some ⟨"v1", "/w", JsData.arr [JsData.num 1]⟩⟩ ∧
    fireforgetSet timerReceiverCache ⟨"v1", "/w", JsData.arr [JsData.num 1]⟩ =
      none :=
  ⟨rfl, by decide, rfl,
    (cache_store_never_reaches_backend jsonLite "/w" ⟨0, 0, 0⟩ [("etag", "v1")]
      "[1]" (JsData.arr [JsData.num 1]) "v1" rfl (by decide) rfl).1,
    (cache_store_never_reaches_backend jsonLite "/w" ⟨0, 0, 0⟩ [("etag", "v1")]
      "[1]" (JsData.arr [JsData.num 1]) "v1" rfl (by decide) rfl).2.1⟩

end Mana
